import Mathlib

/-!
Verification of the push-token reconciliation engine
(src/td/telegram/DeviceTokenManager.cpp).

The engine keeps one `TokenInfo` record per push transport type, exposes
`register_device`, runs a reconciliation `loop` that emits at most one
network request per transport, handles responses in `on_result`, and
persists records through a tagged binary codec with a legacy
one-character-prefix fallback.

Modelling conventions:
  - byte strings (C++ `std::string`) are `List Nat`;
  - the caller-supplied completion handle (`Promise`) is an opaque promise
    id (`Nat`); resolving a promise is recorded as an explicit effect
    `(promise id, Outcome)` in the returned effect list;
  - the external durable store is not modelled; a call of `save_info` is
    recorded as a `SaveOp` effect;
  - the external network dispatcher is not modelled; the loop returns the
    list of requests it dispatched, tagged with their query ids;
  - error message strings are abstracted to the enum `ErrMsg`;
  - the secure random generator and `DhHandshake::calc_key_id` (external
    collaborators) are modelled as a stream of candidate
    (key bytes, derived id) draws supplied to the allocator;
  - fields of `TokenInfo` whose declaration lives in the missing header
    DeviceTokenManager.h are reconstructed from their uses in the .cpp
    file and from the spec's data model (zero-valued initial record).
-/

namespace DeviceTokenManager

/-- Tri-state of a token record: `Sync`, `Unregister` (pending unregister),
or `Register` (pending register). -/
inductive State
  | Sync
  | Unregister
  | Register
  deriving DecidableEq

/-- Error message kinds appearing in the .cpp file (strings abstracted);
`other` stands for an arbitrary server-supplied message. -/
inductive ErrMsg
  | tokenNotUTF8
  | invalidUserId
  | tooManyUserIds
  | gotFalse
  | other (n : Nat)
  deriving DecidableEq

/-- An error status: numeric code plus message kind
(C++ td::Status::Error(code, message)). -/
structure Err where
  code : Int
  msg : ErrMsg
  deriving DecidableEq

/-- Outcome delivered to a completion handle: either a pushReceiverId value
(a default-constructed pushReceiverId carries id 0, the neutral result) or
an error status. -/
inductive Outcome
  | value (push_token_id : Int)
  | error (e : Err)
  deriving DecidableEq

/-- Per-transport token record (struct TokenInfo, reconstructed from its
uses in the .cpp file).  The runtime-only fields `net_query_id` (in-flight
request id, 0 = none) and `promise` (pending receipt, an opaque promise id)
live in the same record as in the source; they are not persisted.
A fresh record is zero-valued. -/
structure TokenInfo where
  state : State := State.Sync
  token : List Nat := []
  other_user_ids : List Int := []
  is_app_sandbox : Bool := false
  encrypt : Bool := false
  encryption_key : List Nat := []
  encryption_key_id : Int := 0
  net_query_id : Nat := 0
  promise : Option Nat := none
  deriving DecidableEq

/-- The zero-valued record a transport slot holds before anything is loaded
or registered. -/
def TokenInfo.init : TokenInfo := {}

/-- Modelled from the spec: MAX_OTHER_USER_IDS is declared in the header
DeviceTokenManager.h, which is not part of the sources; the spec only
requires a fixed bound on the auxiliary user-id list. -/
def MAX_OTHER_USER_IDS : Nat := 100

/-- register_device line 253. -/
def MIN_ENCRYPTION_KEY_ID : Int := 10000000000000

/-- register_device line 252. -/
def ENCRYPTION_KEY_LENGTH : Nat := 256

/-- Encryption key allocator (register_device lines 254-262): walk the
stream of (key bytes, derived id) draws produced by the secure RNG plus
DhHandshake::calc_key_id and return the first draw whose id satisfies
id ≤ -MIN_ENCRYPTION_KEY_ID or id ≥ MIN_ENCRYPTION_KEY_ID; `none` models
the while-true loop never finding an acceptable draw. -/
def allocate_key : List (List Nat × Int) → Option (List Nat × Int)
  | [] => none
  | d :: ds =>
    if d.2 ≤ -MIN_ENCRYPTION_KEY_ID ∨ MIN_ENCRYPTION_KEY_ID ≤ d.2 then some d
    else allocate_key ds

/-- Pack the six booleans of TokenInfo::store's flag block into a bit set,
bit 0 first (STORE_FLAG order). -/
def flags_pack (b0 b1 b2 b3 b4 b5 : Bool) : Nat :=
  (if b0 then 1 else 0) + (if b1 then 2 else 0) + (if b2 then 4 else 0) +
    (if b3 then 8 else 0) + (if b4 then 16 else 0) + (if b5 then 32 else 0)

/-- Flag block written by TokenInfo::store (lines 36-47): has_other_user_ids,
is_sync, is_unregister, is_register, is_app_sandbox, encrypt. -/
def flags_of (info : TokenInfo) : Nat :=
  flags_pack (decide (info.other_user_ids ≠ [])) (decide (info.state = State.Sync))
    (decide (info.state = State.Unregister)) (decide (info.state = State.Register))
    info.is_app_sandbox info.encrypt

/-- Serialized form of an int64 / int32 (the primitive storers live outside
the sources; modelled as a sign atom followed by the magnitude atom). -/
def store_int (i : Int) : List Nat := [if i < 0 then 1 else 0, i.natAbs]

/-- Serialized form of a list of int32 values, element-wise. -/
def store_ints : List Int → List Nat
  | [] => []
  | i :: l => store_int i ++ store_ints l

/-- Serialized form of a byte string (the primitive storer lives outside the
sources; modelled as a length atom followed by the raw bytes). -/
def store_bytes (b : List Nat) : List Nat := b.length :: b

/-- TokenInfo::store (lines 33-56): flag block, token, other_user_ids when
the has_other_user_ids flag is set (a count atom then the elements, as the
vector storer writes), key bytes and key id when encrypt is set. -/
def store_token_info (info : TokenInfo) : List Nat :=
  flags_of info ::
    (store_bytes info.token ++
      (if info.other_user_ids = [] then []
        else info.other_user_ids.length :: store_ints info.other_user_ids) ++
      (if info.encrypt then store_bytes info.encryption_key ++ store_int info.encryption_key_id
        else []))

/-- Parse an integer stored by `store_int`. -/
def parse_int : List Nat → Option (Int × List Nat)
  | 0 :: m :: rest => some ((m : Int), rest)
  | 1 :: m :: rest => some (-(m : Int), rest)
  | _ => none

/-- Parse a count of integers stored by `store_ints`. -/
def parse_ints : Nat → List Nat → Option (List Int × List Nat)
  | 0, s => some ([], s)
  | n + 1, s =>
    match parse_int s with
    | none => none
    | some (i, s1) =>
      match parse_ints n s1 with
      | none => none
      | some (l, s2) => some (i :: l, s2)

/-- Parse a byte string stored by `store_bytes`. -/
def parse_bytes : List Nat → Option (List Nat × List Nat)
  | [] => none
  | n :: rest => if n ≤ rest.length then some (rest.take n, rest.drop n) else none

/-- Number of state flags (is_sync bit 1, is_unregister bit 2, is_register
bit 3) set in a flag block; TokenInfo::parse CHECKs it equals 1 (line 73). -/
def state_flag_count (flags : Nat) : Nat :=
  (if flags.testBit 1 then 1 else 0) + (if flags.testBit 2 then 1 else 0) +
    (if flags.testBit 3 then 1 else 0)

/-- TokenInfo::parse (lines 58-89).  The CHECK on the state flags is
modelled as a parse failure; the runtime-only fields come out zero-valued.
Unknown high flag bits are ignored (END_PARSE_FLAGS_GENERIC). -/
def parse_token_info : List Nat → Option (TokenInfo × List Nat)
  | [] => none
  | flags :: rest =>
    if state_flag_count flags ≠ 1 then none
    else
      match parse_bytes rest with
      | none => none
      | some (tok, s1) =>
        let st := if flags.testBit 1 then State.Sync
          else if flags.testBit 2 then State.Unregister else State.Register
        let ous : Option (List Int × List Nat) :=
          if flags.testBit 0 then
            match s1 with
            | [] => none
            | n :: s1' => parse_ints n s1'
          else some ([], s1)
        match ous with
        | none => none
        | some (us, s2) =>
          if flags.testBit 5 then
            match parse_bytes s2 with
            | none => none
            | some (k, s3) =>
              match parse_int s3 with
              | none => none
              | some (kid, s4) =>
                some ({ state := st, token := tok, other_user_ids := us,
                        is_app_sandbox := flags.testBit 4, encrypt := true,
                        encryption_key := k, encryption_key_id := kid }, s4)
          else
            some ({ state := st, token := tok, other_user_ids := us,
                    is_app_sandbox := flags.testBit 4, encrypt := false }, s2)

/-- A write to the durable key-value store issued by save_info. -/
inductive SaveOp
  | erase
  | write (data : List Nat)
  deriving DecidableEq

/-- save_info (lines 328-338): erase the entry when the token is empty,
else write the marker byte 42 followed by the serialized record. -/
def save_info (info : TokenInfo) : SaveOp :=
  if info.token = [] then SaveOp.erase else SaveOp.write (42 :: store_token_info info)

/-- start_up handling of one non-empty persisted entry (lines 300-322),
starting from the zero-valued record: marker byte 42 introduces the tagged
encoding (decode failure, including trailing bytes, resets the record to
empty); legacy prefix bytes 43, 45, 61 set state Register, Unregister,
Sync with the remainder as the raw token; any other prefix leaves the
record empty. -/
def load_entry : List Nat → TokenInfo
  | [] => TokenInfo.init
  | c :: rest =>
    if c = 42 then
      match parse_token_info rest with
      | some (info, []) => info
      | _ => TokenInfo.init
    else if c = 43 then { state := State.Register, token := rest }
    else if c = 45 then { state := State.Unregister, token := rest }
    else if c = 61 then { state := State.Sync, token := rest }
    else TokenInfo.init

/-- Steps 4-8 of register_device (lines 248-271): overwrite other_user_ids
and is_app_sandbox, toggle the encryption material when the encrypt flag
changes (allocation draws come from `draws`; `none` models a diverging
allocation), resolve any previous pending receipt with the neutral result,
store the new promise, and persist the record. -/
def finish_register (draws : List (List Nat × Int)) (info : TokenInfo)
    (other_user_ids : List Int) (is_app_sandbox : Bool) (encrypt : Bool) (p : Nat) :
    Option (TokenInfo × List (Nat × Outcome) × Option SaveOp) :=
  let info1 := { info with other_user_ids := other_user_ids, is_app_sandbox := is_app_sandbox }
  let enc? : Option TokenInfo :=
    if encrypt = info1.encrypt then some info1
    else if encrypt then
      match allocate_key draws with
      | none => none
      | some (k, kid) =>
        some { info1 with encryption_key := k, encryption_key_id := kid, encrypt := encrypt }
    else some { info1 with encryption_key := [], encryption_key_id := 0, encrypt := encrypt }
  match enc? with
  | none => none
  | some info2 =>
    let resolutions := match info2.promise with
      | some q => [(q, Outcome.value 0)]
      | none => []
    let info3 := { info2 with promise := some p }
    some (info3, resolutions, some (save_info info3))

/-- register_device after token extraction (lines 222-272).  `cleanInput`
models clean_input_string (external: UTF-8 validation / cleaning; `none`
means invalid), `isValidUserId` models UserId::is_valid (external).
Returns the new record, the list of resolved (promise id, outcome) pairs,
and the persistence write, or `none` when key allocation diverges. -/
def register_device (cleanInput : List Nat → Option (List Nat)) (isValidUserId : Int → Bool)
    (draws : List (List Nat × Int)) (info : TokenInfo) (token0 : List Nat)
    (other_user_ids : List Int) (is_app_sandbox : Bool) (encrypt : Bool) (p : Nat) :
    Option (TokenInfo × List (Nat × Outcome) × Option SaveOp) :=
  match cleanInput token0 with
  | none => some (info, [(p, Outcome.error { code := 400, msg := ErrMsg.tokenNotUTF8 })], none)
  | some token =>
    if ¬ other_user_ids.all isValidUserId then
      some (info, [(p, Outcome.error { code := 400, msg := ErrMsg.invalidUserId })], none)
    else if MAX_OTHER_USER_IDS < other_user_ids.length then
      some (info, [(p, Outcome.error { code := 400, msg := ErrMsg.tooManyUserIds })], none)
    else
      let info1 := { info with net_query_id := 0 }
      if token = [] then
        if info1.token = [] then some (info1, [(p, Outcome.value 0)], none)
        else
          finish_register draws { info1 with state := State.Unregister }
            other_user_ids is_app_sandbox encrypt p
      else
        finish_register draws { info1 with state := State.Register, token := token }
          other_user_ids is_app_sandbox encrypt p

/-- An outbound network request built by the loop (lines 358-366). -/
inductive Request
  | unregister (token_type : Nat) (token : List Nat) (other_user_ids : List Int)
  | register (token_type : Nat) (token : List Nat) (is_app_sandbox : Bool)
      (encryption_key : List Nat) (other_user_ids : List Int)
  deriving DecidableEq

/-- Transport type a request is correlated with. -/
def Request.token_type : Request → Nat
  | Request.unregister t _ _ => t
  | Request.register t _ _ _ _ => t

/-- Request the loop builds for a record (lines 360-366): unregister when
the state is Unregister, else register. -/
def mk_request (token_type : Nat) (info : TokenInfo) : Request :=
  if info.state = State.Unregister then
    Request.unregister token_type info.token info.other_user_ids
  else
    Request.register token_type info.token info.is_app_sandbox info.encryption_key
      info.other_user_ids

/-- One transport's slice of the loop body (lines 350-368): skip when the
state is Sync or a request is in flight, else build the request, record the
fresh query id and dispatch. -/
def loop_step (gen_id token_type : Nat) (info : TokenInfo) :
    TokenInfo × Option (Nat × Request) :=
  if info.state = State.Sync ∨ info.net_query_id ≠ 0 then (info, none)
  else ({ info with net_query_id := gen_id }, some (gen_id, mk_request token_type info))

/-- Pointwise update of the per-transport record table. -/
def upd (tokens : Nat → TokenInfo) (t : Nat) (v : TokenInfo) : Nat → TokenInfo :=
  fun u => if u = t then v else tokens u

/-- The transports the loop visits: 1, ..., size - 1 in ascending order
(for token_type = 1; token_type < TokenType::SIZE). -/
def transport_types (size : Nat) : List Nat := (List.range size).drop 1

/-- Body of the loop over a list of transports (lines 349-369), threading a
counter of fresh query ids; returns the updated record table and the
dispatched requests tagged with their query ids. -/
def loop_go (tokens : Nat → TokenInfo) (next_id : Nat) :
    List Nat → (Nat → TokenInfo) × List (Nat × Request)
  | [] => (tokens, [])
  | t :: ts =>
    if (tokens t).state = State.Sync ∨ (tokens t).net_query_id ≠ 0 then
      loop_go tokens next_id ts
    else
      let r := loop_go (upd tokens t { tokens t with net_query_id := next_id }) (next_id + 1) ts
      (r.1, (next_id, mk_request t (tokens t)) :: r.2)

/-- The reconciliation loop (lines 345-370): a no-op while the Sync Barrier
counter sync_cnt is non-zero, else one ascending pass over all transports. -/
def loop (sync_cnt : Nat) (tokens : Nat → TokenInfo) (next_id size : Nat) :
    (Nat → TokenInfo) × List (Nat × Request) :=
  if sync_cnt ≠ 0 then (tokens, []) else loop_go tokens next_id (transport_types size)

/-- The requests of a pass correlated with one transport type. -/
def reqs_for (t : Nat) (rs : List (Nat × Request)) : List (Nat × Request) :=
  rs.filter (fun r => r.2.token_type == t)

/-- Number of transports in a list whose record would emit a request
(neither Synced nor with a request in flight). -/
def pending_count (tokens : Nat → TokenInfo) : List Nat → Nat
  | [] => 0
  | u :: us =>
    (if (tokens u).state = State.Sync ∨ (tokens u).net_query_id ≠ 0 then 0 else 1) +
      pending_count tokens us

/-- The transports a pass visits strictly before it reaches transport t. -/
def before_first (t : Nat) : List Nat → List Nat
  | [] => []
  | u :: us => if u = t then [] else u :: before_first t us

/-- A completed network response: boolean server result or error
(fetch_result in on_result). -/
inductive NetResult
  | ok (flag : Bool)
  | err (e : Err)
  deriving DecidableEq

/-- Failure branch of on_result (lines 403-420): resolve the pending
receipt with the given error, rewind Register to Unregister, else settle
to Sync with the token cleared; persist. -/
def apply_failure (info1 : TokenInfo) (e : Err) :
    TokenInfo × List (Nat × Outcome) × Option SaveOp :=
  let resolutions := match info1.promise with
    | some q => [(q, Outcome.error e)]
    | none => []
  let info2 := if info1.state = State.Register then { info1 with state := State.Unregister }
    else { info1 with state := State.Sync, token := [] }
  let info3 := { info2 with promise := none }
  (info3, resolutions, some (save_info info3))

/-- on_result for one transport's record (lines 372-422): discard a stale
response whose query id does not match; else clear the in-flight id and
advance the state machine, resolving the pending receipt (a td Promise is
consumed by set_value / set_error, so the stored promise becomes none). -/
def on_result (my_id : Int) (info : TokenInfo) (query_id : Nat) (res : NetResult) :
    TokenInfo × List (Nat × Outcome) × Option SaveOp :=
  if info.net_query_id ≠ query_id then (info, [], none)
  else
    let info1 := { info with net_query_id := 0 }
    match res with
    | NetResult.ok true =>
      let push_token_id : Int :=
        if info1.state = State.Register then
          if info1.encrypt then info1.encryption_key_id else my_id
        else 0
      let resolutions := match info1.promise with
        | some q => [(q, Outcome.value push_token_id)]
        | none => []
      let info2 := if info1.state = State.Unregister then { info1 with token := [] } else info1
      let info3 := { info2 with state := State.Sync, promise := none }
      (info3, resolutions, some (save_info info3))
    | NetResult.ok false => apply_failure info1 { code := 5, msg := ErrMsg.gotFalse }
    | NetResult.err e => apply_failure info1 e

/-- A pass-through model of clean_input_string: every byte string is valid
and cleaning changes nothing. -/
def clean_id : List Nat → Option (List Nat) := fun t => some t

/-- A concrete model of UserId::is_valid: positive ids are valid. -/
def valid_pos : Int → Bool := fun i => decide (0 < i)

/-- A record with an empty token but a stale in-flight request id. -/
def infoC5 : TokenInfo := { net_query_id := 5 }

/-- C6 witness support: a clean_input_string model rejecting every token. -/
def clean_none : List Nat → Option (List Nat) := fun _ => none

/-- C6 witness support: a user-id validity model rejecting every id. -/
def valid_none : Int → Bool := fun _ => false

/-- Witness support: a pending registration with an in-flight request and a
pending receipt. -/
def infoR : TokenInfo :=
  { state := State.Register, token := [1], net_query_id := 7, promise := some 9 }

/-- C4 witness support: the record after re-registering token [6] over infoR. -/
def infoC4 : TokenInfo :=
  { infoR with net_query_id := 0, state := State.Register, token := [6], promise := some 2 }

/-- C10 witness support: the record after registering an empty token over infoR. -/
def infoC10 : TokenInfo :=
  { infoR with net_query_id := 0, state := State.Unregister, promise := some 2 }

/-- C8 witness support: a record exercising every conditional field of the
codec, with non-zero runtime-only fields. -/
def infoC8 : TokenInfo :=
  { state := State.Unregister, token := [1, 2], other_user_ids := [-3, 4],
    is_app_sandbox := true, encrypt := true, encryption_key := [7],
    encryption_key_id := -5, net_query_id := 6, promise := some 1 }

/-- C1 witness support: transport 1 has a request in flight, transport 2 is
pending unregister, transport 3 (and the rest) is Synced. -/
def tokW : Nat → TokenInfo := fun t =>
  if t = 1 then { state := State.Register, token := [1], net_query_id := 9 }
  else if t = 2 then { state := State.Unregister, token := [2, 3] }
  else TokenInfo.init

/-- Reachability invariant of a token record: a pending receipt implies a
non-empty stored token, and an in-flight request implies a non-Synced
state.  Preserved by every operation of the engine (lemmas below), which
justifies reasoning about response handling and superseding only on such
records. -/
def record_inv (info : TokenInfo) : Prop :=
  (info.promise ≠ none → info.token ≠ []) ∧
    (info.net_query_id ≠ 0 → info.state ≠ State.Sync)

/-- C7 witness support: draw stream with one rejected then one accepted draw. -/
def drawsC7 : List (List Nat × Int) := [([1], 5), ([2], 20000000000000)]

/-- C7 witness support: the record produced by a register call toggling
encrypt on with draw stream drawsC7. -/
def infoC7 : TokenInfo :=
  { state := State.Register, token := [3], encrypt := true, encryption_key := [2],
    encryption_key_id := 20000000000000, promise := some 2 }

end DeviceTokenManager

namespace DeviceTokenManager

/-- C5 counterexample: a register call with an empty token on a record whose
stored token is already empty still clears the in-flight request id (line
236 of the source runs before the early return), so on a record holding a
non-zero in-flight request id a field of the record does change. -/
theorem register_empty_noop_changes_field :
    register_device clean_id valid_pos [] infoC5 [] [] false false 1 =
      some ({ infoC5 with net_query_id := 0 }, [(1, Outcome.value 0)], none) ∧
    { infoC5 with net_query_id := 0 } ≠ infoC5 := by
  refine ⟨rfl, by decide⟩

/-- C5 amended: a register call passing validation, with an empty token, on a
record whose stored token is already empty resolves the new completion
handle immediately with the neutral success result, issues no persistence
write and builds no network request, and changes no field of the record
except the in-flight request id, which is cleared to zero (so nothing
changes when no request was in flight). -/
theorem register_empty_noop (cleanInput : List Nat → Option (List Nat))
    (isValidUserId : Int → Bool) (draws : List (List Nat × Int)) (info : TokenInfo)
    (token0 : List Nat) (other_user_ids : List Int) (sandbox enc : Bool) (p : Nat)
    (hclean : cleanInput token0 = some [])
    (hvalid : other_user_ids.all isValidUserId = true)
    (hlen : other_user_ids.length ≤ MAX_OTHER_USER_IDS)
    (hempty : info.token = []) :
    register_device cleanInput isValidUserId draws info token0 other_user_ids sandbox enc p =
      some ({ info with net_query_id := 0 }, [(p, Outcome.value 0)], none) := by
  simp [register_device, hclean, hvalid, Nat.not_lt.mpr hlen, hempty]

/-- C5 amended witness: concrete no-op register call. -/
theorem register_empty_noop_witness :
    register_device clean_id valid_pos [] TokenInfo.init [] [] false false 3 =
      some ({ TokenInfo.init with net_query_id := 0 }, [(3, Outcome.value 0)], none) :=
  register_empty_noop clean_id valid_pos [] TokenInfo.init [] [] false false 3
    rfl rfl (by decide) rfl

/-- C6: validation failures resolve the completion handle synchronously with
a client-error of code 400 at the first violation, leave every field of the
record unchanged and persist nothing: a token that fails UTF-8 cleaning, an
other user id that is not valid, and more than MAX_OTHER_USER_IDS other user
ids, checked in the source's order. -/
theorem register_validation_errors (cleanInput : List Nat → Option (List Nat))
    (isValidUserId : Int → Bool) (draws : List (List Nat × Int)) (info : TokenInfo)
    (token0 : List Nat) (other_user_ids : List Int) (sandbox enc : Bool) (p : Nat) :
    (cleanInput token0 = none →
      register_device cleanInput isValidUserId draws info token0 other_user_ids sandbox enc p =
        some (info, [(p, Outcome.error { code := 400, msg := ErrMsg.tokenNotUTF8 })], none)) ∧
    (∀ tok, cleanInput token0 = some tok → other_user_ids.all isValidUserId = false →
      register_device cleanInput isValidUserId draws info token0 other_user_ids sandbox enc p =
        some (info, [(p, Outcome.error { code := 400, msg := ErrMsg.invalidUserId })], none)) ∧
    (∀ tok, cleanInput token0 = some tok → other_user_ids.all isValidUserId = true →
      MAX_OTHER_USER_IDS < other_user_ids.length →
      register_device cleanInput isValidUserId draws info token0 other_user_ids sandbox enc p =
        some (info, [(p, Outcome.error { code := 400, msg := ErrMsg.tooManyUserIds })], none)) := by
  refine ⟨fun h => by simp [register_device, h], fun tok h hv => ?_, fun tok h hv hlen => ?_⟩
  · simp [register_device, h, hv]
  · simp [register_device, h, hv, hlen]

/-- C6 witness: the three violations on concrete inputs. -/
theorem register_validation_errors_witness :
    register_device clean_none valid_pos [] TokenInfo.init [1] [] false false 4 =
      some (TokenInfo.init,
        [(4, Outcome.error { code := 400, msg := ErrMsg.tokenNotUTF8 })], none) ∧
    register_device clean_id valid_none [] TokenInfo.init [1] [2] false false 4 =
      some (TokenInfo.init,
        [(4, Outcome.error { code := 400, msg := ErrMsg.invalidUserId })], none) ∧
    register_device clean_id valid_pos [] TokenInfo.init [1] (List.replicate 101 1) false false 4 =
      some (TokenInfo.init,
        [(4, Outcome.error { code := 400, msg := ErrMsg.tooManyUserIds })], none) := by
  refine ⟨(register_validation_errors clean_none valid_pos [] TokenInfo.init [1] [] false false 4).1 rfl,
    (register_validation_errors clean_id valid_none [] TokenInfo.init [1] [2] false false 4).2.1
      [1] rfl (by decide),
    (register_validation_errors clean_id valid_pos [] TokenInfo.init [1]
      (List.replicate 101 1) false false 4).2.2 [1] rfl (by decide) (by decide)⟩

/-- C9: decoding a persisted entry that does not begin with the tagged
encoding marker byte: prefix 43 yields state Register with the remainder as
the token, 45 yields Unregister, 61 yields Sync, and any other non-marker
prefix byte leaves the record empty. -/
theorem legacy_entry_decode (t : List Nat) :
    load_entry (43 :: t) = { TokenInfo.init with state := State.Register, token := t } ∧
    load_entry (45 :: t) = { TokenInfo.init with state := State.Unregister, token := t } ∧
    load_entry (61 :: t) = { TokenInfo.init with state := State.Sync, token := t } ∧
    ∀ c, c ≠ 42 → c ≠ 43 → c ≠ 45 → c ≠ 61 → load_entry (c :: t) = TokenInfo.init := by
  refine ⟨rfl, rfl, rfl, fun c h42 h43 h45 h61 => ?_⟩
  simp [load_entry, h42, h43, h45, h61]

/-- C9 witness: concrete legacy entries. -/
theorem legacy_entry_decode_witness :
    load_entry (43 :: [7, 8]) =
      { TokenInfo.init with state := State.Register, token := [7, 8] } ∧
    load_entry (100 :: [7, 8]) = TokenInfo.init :=
  ⟨(legacy_entry_decode [7, 8]).1,
    (legacy_entry_decode [7, 8]).2.2.2 100 (by decide) (by decide) (by decide) (by decide)⟩

/-- The allocator returns a draw from the stream, and only one whose id is
at or outside the band boundaries. -/
theorem allocate_key_spec (draws : List (List Nat × Int)) :
    ∀ k i, allocate_key draws = some (k, i) →
      (i ≤ -MIN_ENCRYPTION_KEY_ID ∨ MIN_ENCRYPTION_KEY_ID ≤ i) ∧ (k, i) ∈ draws := by
  induction draws with
  | nil => intro k i h; simp [allocate_key] at h
  | cons d ds ih =>
    intro k i h
    simp only [allocate_key] at h
    split at h
    · obtain rfl : d = (k, i) := Option.some.inj h
      exact ⟨by assumption, List.mem_cons_self _ _⟩
    · obtain ⟨h1, h2⟩ := ih k i h
      exact ⟨h1, List.mem_cons_of_mem _ h2⟩

/-- Everything finish_register (register_device lines 248-271) does to the
record: overwrites the user-id list and sandbox flag, keeps state, token and
the cleared in-flight id, supersedes the pending receipt with the neutral
result, installs the new promise, persists, and toggles the encryption
material exactly on an encrypt flag change. -/
theorem finish_register_spec (draws : List (List Nat × Int)) (info : TokenInfo)
    (other_user_ids : List Int) (sandbox enc : Bool) (p : Nat)
    (info' : TokenInfo) (res : List (Nat × Outcome)) (sv : Option SaveOp)
    (h : finish_register draws info other_user_ids sandbox enc p = some (info', res, sv)) :
    info'.promise = some p ∧
    res = (match info.promise with | some q => [(q, Outcome.value 0)] | none => []) ∧
    info'.state = info.state ∧ info'.token = info.token ∧
    info'.net_query_id = info.net_query_id ∧ info'.other_user_ids = other_user_ids ∧
    info'.is_app_sandbox = sandbox ∧ sv = some (save_info info') ∧ info'.encrypt = enc ∧
    (enc = info.encrypt →
      info'.encryption_key = info.encryption_key ∧
      info'.encryption_key_id = info.encryption_key_id) ∧
    (info.encrypt = false → enc = true →
      allocate_key draws = some (info'.encryption_key, info'.encryption_key_id)) ∧
    (info.encrypt = true → enc = false →
      info'.encryption_key = [] ∧ info'.encryption_key_id = 0) := by
  obtain ⟨st, tokn, ous, sb, ien, key, kid, nq, prom⟩ := info
  rcases halloc : allocate_key draws with _ | ⟨k2, kid2⟩ <;>
    cases prom <;> cases ien <;> cases enc <;>
      simp only [finish_register, halloc, Option.some.injEq, Prod.mk.injEq,
        if_true, if_false, Bool.false_eq_true, Bool.true_eq_false, ite_true, ite_false,
        reduceIte, reduceCtorEq] at h
  all_goals obtain ⟨rfl, rfl, rfl⟩ := h
  all_goals simp [halloc]

/-- A register call passing validation reduces to the empty-empty early
return or to finish_register on the state-updated record. -/
theorem register_device_reduces (cleanInput : List Nat → Option (List Nat))
    (isValidUserId : Int → Bool) (draws : List (List Nat × Int)) (info : TokenInfo)
    (token0 tok : List Nat) (other_user_ids : List Int) (sandbox enc : Bool) (p : Nat)
    (hclean : cleanInput token0 = some tok)
    (hvalid : other_user_ids.all isValidUserId = true)
    (hlen : other_user_ids.length ≤ MAX_OTHER_USER_IDS) :
    register_device cleanInput isValidUserId draws info token0 other_user_ids sandbox enc p =
      (if tok = [] then
        (if info.token = [] then
          some ({ info with net_query_id := 0 }, [(p, Outcome.value 0)], none)
        else
          finish_register draws { info with net_query_id := 0, state := State.Unregister }
            other_user_ids sandbox enc p)
      else
        finish_register draws { info with net_query_id := 0, state := State.Register, token := tok }
          other_user_ids sandbox enc p) := by
  by_cases htok : tok = [] <;> by_cases hit : info.token = [] <;>
    simp [register_device, hclean, hvalid, Nat.not_lt.mpr hlen, htok, hit]

/-- C7 counterexample: a draw whose derived id equals MIN_ENCRYPTION_KEY_ID
is accepted by the allocator without a redraw, yet that id lies within the
closed band [-MIN_ENCRYPTION_KEY_ID, MIN_ENCRYPTION_KEY_ID]; the source
(line 258) redraws only on ids strictly inside the open band. -/
theorem allocate_key_boundary_accepted :
    allocate_key [([], MIN_ENCRYPTION_KEY_ID)] = some ([], MIN_ENCRYPTION_KEY_ID) ∧
    -MIN_ENCRYPTION_KEY_ID ≤ MIN_ENCRYPTION_KEY_ID ∧
    MIN_ENCRYPTION_KEY_ID ≤ MIN_ENCRYPTION_KEY_ID := by
  refine ⟨?_, by norm_num [MIN_ENCRYPTION_KEY_ID], le_refl _⟩
  simp [allocate_key]

/-- C7 amended: on a register call passing validation with a non-empty
cleaned token, toggling encrypt from false to true stores the allocator's
draw, whose id always satisfies id ≤ -MIN_ENCRYPTION_KEY_ID or
id ≥ MIN_ENCRYPTION_KEY_ID (the redraw loop rejects exactly the ids
strictly inside the open band); toggling from true to false clears the key
bytes and sets the id to 0; when the encrypt flag does not change the key
material is never reallocated; the allocator draws 256-byte keys whenever
the draw stream does. -/
theorem encryption_key_lifecycle (cleanInput : List Nat → Option (List Nat))
    (isValidUserId : Int → Bool) (draws : List (List Nat × Int)) (info : TokenInfo)
    (token0 tok : List Nat) (other_user_ids : List Int) (sandbox enc : Bool) (p : Nat)
    (hclean : cleanInput token0 = some tok) (htok : tok ≠ [])
    (hvalid : other_user_ids.all isValidUserId = true)
    (hlen : other_user_ids.length ≤ MAX_OTHER_USER_IDS) :
    (∀ info' res sv,
      register_device cleanInput isValidUserId draws info token0 other_user_ids sandbox enc p =
        some (info', res, sv) →
      (info.encrypt = false → enc = true →
        info'.encrypt = true ∧
        allocate_key draws = some (info'.encryption_key, info'.encryption_key_id) ∧
        (info'.encryption_key_id ≤ -MIN_ENCRYPTION_KEY_ID ∨
          MIN_ENCRYPTION_KEY_ID ≤ info'.encryption_key_id)) ∧
      (info.encrypt = true → enc = false →
        info'.encrypt = false ∧ info'.encryption_key = [] ∧ info'.encryption_key_id = 0) ∧
      (enc = info.encrypt →
        info'.encrypt = info.encrypt ∧ info'.encryption_key = info.encryption_key ∧
          info'.encryption_key_id = info.encryption_key_id)) ∧
    (∀ k i, allocate_key draws = some (k, i) →
      (i ≤ -MIN_ENCRYPTION_KEY_ID ∨ MIN_ENCRYPTION_KEY_ID ≤ i) ∧
      ((∀ d ∈ draws, d.1.length = ENCRYPTION_KEY_LENGTH) →
        k.length = ENCRYPTION_KEY_LENGTH)) := by
  constructor
  · intro info' res sv hreg
    rw [register_device_reduces cleanInput isValidUserId draws info token0 tok other_user_ids
      sandbox enc p hclean hvalid hlen, if_neg htok] at hreg
    obtain ⟨hp, hres, hst, htk, hnq, hou, hsb, hsv, hene, hkeep, hon, hoff⟩ :=
      finish_register_spec _ _ _ _ _ _ _ _ _ hreg
    refine ⟨fun hf ht => ?_, fun ht hf => ?_, fun he => ?_⟩
    · have halloc := hon (by simpa using hf) ht
      exact ⟨by rw [hene, ht], halloc,
        by simpa using (allocate_key_spec draws _ _ halloc).1⟩
    · exact ⟨by rw [hene, hf], (hoff (by simpa using ht) hf).1, (hoff (by simpa using ht) hf).2⟩
    · have hk := hkeep (by simpa using he)
      exact ⟨by rw [hene, he], by simpa using hk.1, by simpa using hk.2⟩
  · intro k i halloc
    refine ⟨(allocate_key_spec draws k i halloc).1, fun hall => ?_⟩
    exact hall _ ((allocate_key_spec draws k i halloc).2)

/-- C7 amended witness: a concrete register call toggling encrypt on, with
one rejected draw followed by one accepted draw. -/
theorem encryption_key_lifecycle_witness :
    infoC7.encrypt = true ∧
    allocate_key drawsC7 = some (infoC7.encryption_key, infoC7.encryption_key_id) ∧
    (infoC7.encryption_key_id ≤ -MIN_ENCRYPTION_KEY_ID ∨
      MIN_ENCRYPTION_KEY_ID ≤ infoC7.encryption_key_id) := by
  exact ((encryption_key_lifecycle clean_id valid_pos drawsC7
    TokenInfo.init [3] [3] [] false true 2 rfl (by decide) rfl (by decide)).1
    infoC7 [] (some (save_info infoC7)) (by decide)).1 rfl rfl

/-- C2: a success response with result true whose request id matches the
record's in-flight id clears the in-flight id, sets the state to Synced,
clears the token exactly when the prior state was PendingUnregister,
persists the record, and resolves a pending receipt with the
encryption_key_id when encrypt is set, else the local account id, or 0
when the prior state was PendingUnregister.  The hypothesis that the prior
state is not Synced holds on every record with a matching in-flight
request: the loop only records an in-flight id on a non-Synced record and
every handler that sets Synced clears the id. -/
theorem on_result_success_advances (my_id : Int) (info : TokenInfo) (qid : Nat)
    (hmatch : info.net_query_id = qid) (hstate : info.state ≠ State.Sync) :
    (on_result my_id info qid (NetResult.ok true)).1.state = State.Sync ∧
    (on_result my_id info qid (NetResult.ok true)).1.net_query_id = 0 ∧
    (on_result my_id info qid (NetResult.ok true)).1.token =
      (if info.state = State.Unregister then [] else info.token) ∧
    (on_result my_id info qid (NetResult.ok true)).2.2 =
      some (save_info (on_result my_id info qid (NetResult.ok true)).1) ∧
    (info.promise = none → (on_result my_id info qid (NetResult.ok true)).2.1 = []) ∧
    (∀ q, info.promise = some q →
      (on_result my_id info qid (NetResult.ok true)).2.1 =
        [(q, Outcome.value (if info.state = State.Unregister then 0
          else if info.encrypt = true then info.encryption_key_id else my_id))]) := by
  obtain ⟨st, tokn, ous, sb, ien, key, kid, nq, prom⟩ := info
  subst hmatch
  cases st
  · exact absurd rfl hstate
  all_goals cases prom <;> cases ien <;> simp [on_result, save_info]

/-- C2 witness: success response for a pending non-encrypted registration
resolves with the local account id and settles the record to Synced. -/
theorem on_result_success_advances_witness :
    (on_result 42 infoR 7 (NetResult.ok true)).1.state = State.Sync ∧
    (on_result 42 infoR 7 (NetResult.ok true)).2.1 = [(9, Outcome.value 42)] := by
  have h := on_result_success_advances 42 infoR 7 rfl (by decide)
  exact ⟨h.1, by simpa [infoR] using h.2.2.2.2.2 9 rfl⟩

/-- C3: a response that is a success with result false or an error, whose
request id matches the in-flight id, resolves a pending receipt with the
underlying error, or with the generic code-5 server-returned-false error
when there is none; a prior PendingRegister state becomes PendingUnregister
and the token is kept, so the next loop pass on the record emits an
unregister request carrying it; any other prior state becomes Synced with
the token cleared; the record is persisted. -/
theorem on_result_failure_rewinds (my_id : Int) (info : TokenInfo) (qid : Nat)
    (res : NetResult) (hmatch : info.net_query_id = qid)
    (hfail : res ≠ NetResult.ok true) :
    ((on_result my_id info qid res).1.state =
      if info.state = State.Register then State.Unregister else State.Sync) ∧
    ((on_result my_id info qid res).1.token =
      if info.state = State.Register then info.token else []) ∧
    ((on_result my_id info qid res).1.net_query_id = 0) ∧
    ((on_result my_id info qid res).2.2 =
      some (save_info (on_result my_id info qid res).1)) ∧
    (info.promise = none → (on_result my_id info qid res).2.1 = []) ∧
    (∀ q, info.promise = some q →
      (on_result my_id info qid res).2.1 =
        [(q, Outcome.error (match res with
          | NetResult.err e => e
          | _ => { code := 5, msg := ErrMsg.gotFalse }))]) ∧
    (info.state = State.Register → ∀ gid t,
      loop_step gid t (on_result my_id info qid res).1 =
        ({ (on_result my_id info qid res).1 with net_query_id := gid },
          some (gid, Request.unregister t info.token info.other_user_ids))) := by
  obtain ⟨st, tokn, ous, sb, ien, key, kid, nq, prom⟩ := info
  subst hmatch
  rcases res with b | e
  · cases b
    · cases st <;> cases prom <;>
        simp [on_result, apply_failure, save_info, loop_step, mk_request]
    · exact absurd rfl hfail
  · cases st <;> cases prom <;>
      simp [on_result, apply_failure, save_info, loop_step, mk_request]

/-- C3 witness: a false-result response for a pending registration rewinds
it to PendingUnregister and the next loop pass emits an unregister request
with the kept token. -/
theorem on_result_failure_rewinds_witness :
    (on_result 42 infoR 7 (NetResult.ok false)).1.state = State.Unregister ∧
    (on_result 42 infoR 7 (NetResult.ok false)).2.1 =
      [(9, Outcome.error { code := 5, msg := ErrMsg.gotFalse })] ∧
    loop_step 8 3 (on_result 42 infoR 7 (NetResult.ok false)).1 =
      ({ (on_result 42 infoR 7 (NetResult.ok false)).1 with net_query_id := 8 },
        some (8, Request.unregister 3 [1] [])) := by
  have h := on_result_failure_rewinds 42 infoR 7 (NetResult.ok false) rfl (by decide)
  exact ⟨by simpa [infoR] using h.1, by simpa [infoR] using h.2.2.2.2.2.1 9 rfl,
    by simpa [infoR] using h.2.2.2.2.2.2 rfl 8 3⟩

/-- C4: a register call passing validation on a record holding a pending
receipt, not taking the empty-on-empty early return, resolves the previous
receipt immediately with the neutral success result (never an error) and
installs the new completion handle as the only pending receipt.  The side
condition excluding the empty-on-empty path holds on every reachable
record: a pending receipt implies a non-empty stored token. -/
theorem register_supersedes_receipt (cleanInput : List Nat → Option (List Nat))
    (isValidUserId : Int → Bool) (draws : List (List Nat × Int)) (info : TokenInfo)
    (token0 tok : List Nat) (other_user_ids : List Int) (sandbox enc : Bool) (p pold : Nat)
    (info' : TokenInfo) (res : List (Nat × Outcome)) (sv : Option SaveOp)
    (hclean : cleanInput token0 = some tok)
    (hvalid : other_user_ids.all isValidUserId = true)
    (hlen : other_user_ids.length ≤ MAX_OTHER_USER_IDS)
    (hpold : info.promise = some pold)
    (hne : ¬(tok = [] ∧ info.token = []))
    (hreg : register_device cleanInput isValidUserId draws info token0 other_user_ids
      sandbox enc p = some (info', res, sv)) :
    res = [(pold, Outcome.value 0)] ∧ info'.promise = some p := by
  rw [register_device_reduces cleanInput isValidUserId draws info token0 tok other_user_ids
    sandbox enc p hclean hvalid hlen] at hreg
  by_cases htok : tok = []
  · have hit : info.token ≠ [] := fun h => hne ⟨htok, h⟩
    rw [if_pos htok, if_neg hit] at hreg
    obtain ⟨hp, hres, -⟩ := finish_register_spec _ _ _ _ _ _ _ _ _ hreg
    exact ⟨by simpa [hpold] using hres, hp⟩
  · rw [if_neg htok] at hreg
    obtain ⟨hp, hres, -⟩ := finish_register_spec _ _ _ _ _ _ _ _ _ hreg
    exact ⟨by simpa [hpold] using hres, hp⟩

/-- C4 witness: registering a new token over a pending receipt resolves the
old receipt neutrally and leaves the new handle pending. -/
theorem register_supersedes_receipt_witness :
    [((9 : Nat), Outcome.value 0)] = [(9, Outcome.value 0)] ∧ infoC4.promise = some 2 := by
  have h := register_supersedes_receipt clean_id valid_pos [] infoR [6] [6] [] false false
    2 9 infoC4 [(9, Outcome.value 0)] (some (save_info infoC4))
    rfl rfl (by decide) rfl (by decide) (by decide)
  exact h

/-- C10: a register call passing validation with an empty token on a record
whose stored token is non-empty keeps the token field unchanged, sets the
state to PendingUnregister and clears the in-flight request id, so a
subsequent loop pass over the record emits an unregister request carrying
the previously registered token value. -/
theorem register_empty_token_unregisters (cleanInput : List Nat → Option (List Nat))
    (isValidUserId : Int → Bool) (draws : List (List Nat × Int)) (info : TokenInfo)
    (token0 : List Nat) (other_user_ids : List Int) (sandbox enc : Bool) (p : Nat)
    (info' : TokenInfo) (res : List (Nat × Outcome)) (sv : Option SaveOp)
    (hclean : cleanInput token0 = some [])
    (hvalid : other_user_ids.all isValidUserId = true)
    (hlen : other_user_ids.length ≤ MAX_OTHER_USER_IDS)
    (hstored : info.token ≠ [])
    (hreg : register_device cleanInput isValidUserId draws info token0 other_user_ids
      sandbox enc p = some (info', res, sv)) :
    info'.token = info.token ∧ info'.state = State.Unregister ∧ info'.net_query_id = 0 ∧
    ∀ gid t, loop_step gid t info' =
      ({ info' with net_query_id := gid },
        some (gid, Request.unregister t info.token info'.other_user_ids)) := by
  rw [register_device_reduces cleanInput isValidUserId draws info token0 [] other_user_ids
    sandbox enc p hclean hvalid hlen, if_pos rfl, if_neg hstored] at hreg
  obtain ⟨hp, hres, hst, htk, hnq, hou, hsb, hsv, -⟩ :=
    finish_register_spec _ _ _ _ _ _ _ _ _ hreg
  have htk' : info'.token = info.token := by simpa using htk
  have hst' : info'.state = State.Unregister := by simpa using hst
  have hnq' : info'.net_query_id = 0 := by simpa using hnq
  refine ⟨htk', hst', hnq', fun gid t => ?_⟩
  rw [loop_step, if_neg (by simp [hst', hnq']), mk_request, if_pos hst', htk']

/-- C10 witness: unregistering over a stored token emits an unregister
request carrying that token on the next loop pass. -/
theorem register_empty_token_unregisters_witness :
    infoC10.token = infoR.token ∧
    loop_step 8 3 infoC10 =
      ({ infoC10 with net_query_id := 8 },
        some (8, Request.unregister 3 infoR.token infoC10.other_user_ids)) := by
  have h := register_empty_token_unregisters clean_id valid_pos [] infoR [] [] false false
    2 infoC10 [(9, Outcome.value 0)] (some (save_info infoC10))
    rfl rfl (by decide) (by decide) (by decide)
  exact ⟨h.1, h.2.2.2 8 3⟩

/-- Taking the length of the left part of an append returns it. -/
theorem take_len_append (b r : List Nat) : (b ++ r).take b.length = b := by
  induction b <;> simp_all

/-- Dropping the length of the left part of an append returns the right part. -/
theorem drop_len_append (b r : List Nat) : (b ++ r).drop b.length = r := by
  induction b <;> simp_all

/-- parse_bytes inverts store_bytes on any continuation. -/
theorem parse_bytes_store (b r : List Nat) :
    parse_bytes (store_bytes b ++ r) = some (b, r) := by
  simp [store_bytes, parse_bytes, take_len_append, drop_len_append, Nat.le_add_right]

/-- parse_int inverts store_int on any continuation. -/
theorem parse_int_store (i : Int) (r : List Nat) :
    parse_int (store_int i ++ r) = some (i, r) := by
  by_cases hi : i < 0
  · have h1 : ((i.natAbs : Int)) = -i := Int.ofNat_natAbs_of_nonpos (le_of_lt hi)
    simp [store_int, hi, parse_int, h1]
  · have h1 : ((i.natAbs : Int)) = i := Int.natAbs_of_nonneg (not_lt.mp hi)
    simp [store_int, hi, parse_int, h1]

/-- parse_ints inverts store_ints on any continuation. -/
theorem parse_ints_store (l : List Int) (r : List Nat) :
    parse_ints l.length (store_ints l ++ r) = some (l, r) := by
  induction l generalizing r with
  | nil => simp [store_ints, parse_ints]
  | cons i l ih => simp [store_ints, parse_ints, parse_int_store, ih]

/-- parse_bytes inverts store_bytes with nothing following. -/
theorem parse_bytes_store_nil (b : List Nat) :
    parse_bytes (store_bytes b) = some (b, []) := by
  simpa using parse_bytes_store b []

/-- parse_int inverts store_int with nothing following. -/
theorem parse_int_store_nil (i : Int) : parse_int (store_int i) = some (i, []) := by
  simpa using parse_int_store i []

/-- parse_ints inverts store_ints with nothing following. -/
theorem parse_ints_store_nil (l : List Int) :
    parse_ints l.length (store_ints l) = some (l, []) := by
  simpa using parse_ints_store l []

/-- Bit 0 of the packed flag block. -/
theorem flags_pack_bit0 (b0 b1 b2 b3 b4 b5 : Bool) :
    (flags_pack b0 b1 b2 b3 b4 b5).testBit 0 = b0 := by
  cases b0 <;> cases b1 <;> cases b2 <;> cases b3 <;> cases b4 <;> cases b5 <;> decide

/-- Bit 1 of the packed flag block. -/
theorem flags_pack_bit1 (b0 b1 b2 b3 b4 b5 : Bool) :
    (flags_pack b0 b1 b2 b3 b4 b5).testBit 1 = b1 := by
  cases b0 <;> cases b1 <;> cases b2 <;> cases b3 <;> cases b4 <;> cases b5 <;> decide

/-- Bit 2 of the packed flag block. -/
theorem flags_pack_bit2 (b0 b1 b2 b3 b4 b5 : Bool) :
    (flags_pack b0 b1 b2 b3 b4 b5).testBit 2 = b2 := by
  cases b0 <;> cases b1 <;> cases b2 <;> cases b3 <;> cases b4 <;> cases b5 <;> decide

/-- Bit 3 of the packed flag block. -/
theorem flags_pack_bit3 (b0 b1 b2 b3 b4 b5 : Bool) :
    (flags_pack b0 b1 b2 b3 b4 b5).testBit 3 = b3 := by
  cases b0 <;> cases b1 <;> cases b2 <;> cases b3 <;> cases b4 <;> cases b5 <;> decide

/-- Bit 4 of the packed flag block. -/
theorem flags_pack_bit4 (b0 b1 b2 b3 b4 b5 : Bool) :
    (flags_pack b0 b1 b2 b3 b4 b5).testBit 4 = b4 := by
  cases b0 <;> cases b1 <;> cases b2 <;> cases b3 <;> cases b4 <;> cases b5 <;> decide

/-- Bit 5 of the packed flag block. -/
theorem flags_pack_bit5 (b0 b1 b2 b3 b4 b5 : Bool) :
    (flags_pack b0 b1 b2 b3 b4 b5).testBit 5 = b5 := by
  cases b0 <;> cases b1 <;> cases b2 <;> cases b3 <;> cases b4 <;> cases b5 <;> decide

/-- C8: the Persistence Codec round-trips every Token Record (the spec's
data-model invariant: key material is present only when encrypt is set;
the runtime-only in-flight id and receipt are not persisted and decode
zero-valued), decoding consumes the encoding exactly, re-encoding the
decoded record reproduces the identical bytes, and the decoder rejects any
flag block in which the number of set state flags differs from one. -/
theorem codec_round_trip (info : TokenInfo)
    (hwf : info.encrypt = false → info.encryption_key = [] ∧ info.encryption_key_id = 0) :
    parse_token_info (store_token_info info) =
      some ({ info with net_query_id := 0, promise := none }, []) ∧
    store_token_info { info with net_query_id := 0, promise := none } =
      store_token_info info ∧
    (∀ flags rest, state_flag_count flags ≠ 1 →
      parse_token_info (flags :: rest) = none) := by
  refine ⟨?_, rfl, fun flags rest h => by simp [parse_token_info, h]⟩
  obtain ⟨st, tokn, ous, sb, enc, key, kid, nq, prom⟩ := info
  cases enc
  · obtain ⟨hk, hkid⟩ := hwf rfl
    subst hk hkid
    by_cases hous : ous = []
    · subst hous
      cases st <;>
        simp [-Nat.testBit_zero, store_token_info, flags_of, parse_token_info,
          state_flag_count, flags_pack_bit0, flags_pack_bit1, flags_pack_bit2,
          flags_pack_bit3, flags_pack_bit4, flags_pack_bit5, parse_bytes_store,
          parse_bytes_store_nil, List.append_assoc]
    · cases st <;>
        simp [-Nat.testBit_zero, store_token_info, flags_of, parse_token_info,
          state_flag_count, flags_pack_bit0, flags_pack_bit1, flags_pack_bit2,
          flags_pack_bit3, flags_pack_bit4, flags_pack_bit5, parse_bytes_store,
          parse_ints_store, parse_ints_store_nil, List.append_assoc, hous]
  · by_cases hous : ous = []
    · subst hous
      cases st <;>
        simp [-Nat.testBit_zero, store_token_info, flags_of, parse_token_info,
          state_flag_count, flags_pack_bit0, flags_pack_bit1, flags_pack_bit2,
          flags_pack_bit3, flags_pack_bit4, flags_pack_bit5, parse_bytes_store,
          parse_int_store, parse_int_store_nil, List.append_assoc]
    · cases st <;>
        simp [-Nat.testBit_zero, store_token_info, flags_of, parse_token_info,
          state_flag_count, flags_pack_bit0, flags_pack_bit1, flags_pack_bit2,
          flags_pack_bit3, flags_pack_bit4, flags_pack_bit5, parse_bytes_store,
          parse_ints_store, parse_int_store, parse_int_store_nil,
          List.append_assoc, hous]

/-- C8 witness: round-trip of a concrete record with every conditional
field present, and decoder rejection of the all-zero flag block. -/
theorem codec_round_trip_witness :
    parse_token_info (store_token_info infoC8) =
      some ({ infoC8 with net_query_id := 0, promise := none }, []) ∧
    parse_token_info (0 :: [1, 2, 3]) = none := by
  have h := codec_round_trip infoC8 (by decide)
  exact ⟨h.1, h.2.2 0 [1, 2, 3] (by decide)⟩

/-- The request the loop builds for transport t is correlated with t. -/
theorem mk_request_type (t : Nat) (info : TokenInfo) :
    (mk_request t info).token_type = t := by
  rw [mk_request]
  split <;> rfl

/-- A loop pass does not touch the record of a transport it does not visit. -/
theorem loop_go_apply_not_mem (ts : List Nat) :
    ∀ (tokens : Nat → TokenInfo) (nid t : Nat), t ∉ ts →
      (loop_go tokens nid ts).1 t = tokens t := by
  induction ts with
  | nil => intro tokens nid t h; rfl
  | cons u us ih =>
    intro tokens nid t h
    have h1 : t ≠ u ∧ t ∉ us := by simpa [List.mem_cons, not_or] using h
    rw [loop_go]
    split
    · exact ih tokens nid t h1.2
    · show (loop_go (upd tokens u { tokens u with net_query_id := nid }) (nid + 1) us).1 t =
        tokens t
      rw [ih _ (nid + 1) t h1.2, upd, if_neg h1.1]

/-- Every request a loop pass emits is correlated with a visited transport. -/
theorem loop_go_req_mem (ts : List Nat) :
    ∀ (tokens : Nat → TokenInfo) (nid : Nat) (pr : Nat × Request),
      pr ∈ (loop_go tokens nid ts).2 → pr.2.token_type ∈ ts := by
  induction ts with
  | nil => intro tokens nid pr h; simp [loop_go] at h
  | cons u us ih =>
    intro tokens nid pr h
    rw [loop_go] at h
    split at h
    · exact List.mem_cons_of_mem _ (ih _ _ _ h)
    · rcases List.mem_cons.mp h with h1 | h1
      · rw [h1]
        simp [mk_request_type]
      · exact List.mem_cons_of_mem _ (ih _ _ _ h1)

/-- A loop pass emits no request for a transport it does not visit. -/
theorem loop_go_reqs_not_mem (ts : List Nat) (tokens : Nat → TokenInfo) (nid t : Nat)
    (h : t ∉ ts) : reqs_for t (loop_go tokens nid ts).2 = [] := by
  rw [reqs_for]
  refine List.filter_eq_nil_iff.mpr fun pr hpr => ?_
  have hmem := loop_go_req_mem ts tokens nid pr hpr
  simp only [beq_iff_eq]
  exact fun he => h (he ▸ hmem)

/-- pending_count only looks at the records of the listed transports. -/
theorem pending_count_congr (l : List Nat) (f g : Nat → TokenInfo)
    (h : ∀ x ∈ l, f x = g x) : pending_count f l = pending_count g l := by
  induction l with
  | nil => rfl
  | cons u us ih =>
    rw [pending_count, pending_count, h u (List.mem_cons_self u us),
      ih fun x hx => h x (List.mem_cons_of_mem u hx)]

/-- The transports visited before t form a sublist of the visited list. -/
theorem mem_before_first (t : Nat) (l : List Nat) :
    ∀ x ∈ before_first t l, x ∈ l := by
  induction l with
  | nil => intro x hx; simp [before_first] at hx
  | cons u us ih =>
    intro x hx
    rw [before_first] at hx
    by_cases hu : u = t
    · rw [if_pos hu] at hx
      cases hx
    · rw [if_neg hu] at hx
      rcases List.mem_cons.mp hx with h1 | h1
      · exact h1 ▸ List.mem_cons_self u us
      · exact List.mem_cons_of_mem _ (ih x h1)

/-- Per-transport characterization of one loop pass over a duplicate-free
visit list: a Synced record or one with a request in flight is skipped
untouched; any other record gets exactly one request, whose fresh id (the
counter plus the number of emitting transports visited earlier) is recorded
as its in-flight request id. -/
theorem loop_go_char (ts : List Nat) :
    ∀ (tokens : Nat → TokenInfo) (nid : Nat), ts.Nodup → ∀ t ∈ ts,
      (((tokens t).state = State.Sync ∨ (tokens t).net_query_id ≠ 0) →
        reqs_for t (loop_go tokens nid ts).2 = [] ∧
        (loop_go tokens nid ts).1 t = tokens t) ∧
      (¬((tokens t).state = State.Sync ∨ (tokens t).net_query_id ≠ 0) →
        reqs_for t (loop_go tokens nid ts).2 =
          [(nid + pending_count tokens (before_first t ts), mk_request t (tokens t))] ∧
        (loop_go tokens nid ts).1 t =
          { tokens t with net_query_id := nid + pending_count tokens (before_first t ts) }) := by
  induction ts with
  | nil => intro tokens nid hnd t ht; cases ht
  | cons u us ih =>
    intro tokens nid hnd t ht
    have hnd' : us.Nodup := (List.nodup_cons.mp hnd).2
    have hu_not : u ∉ us := (List.nodup_cons.mp hnd).1
    rcases List.mem_cons.mp ht with rfl | htus
    · have hbf : before_first t (t :: us) = [] := by simp [before_first]
      constructor
      · intro hskip
        rw [loop_go, if_pos hskip]
        exact ⟨loop_go_reqs_not_mem us tokens nid t hu_not,
          loop_go_apply_not_mem us tokens nid t hu_not⟩
      · intro hskip
        rw [loop_go, if_neg hskip]
        constructor
        · show reqs_for t ((nid, mk_request t (tokens t)) ::
            (loop_go (upd tokens t { tokens t with net_query_id := nid }) (nid + 1) us).2) = _
          rw [reqs_for, List.filter_cons]
          simp only [mk_request_type, beq_self_eq_true, if_true, ite_true]
          rw [show List.filter (fun r => r.2.token_type == t) _ = reqs_for t _ from rfl,
            loop_go_reqs_not_mem us _ (nid + 1) t hu_not, hbf]
          simp [pending_count]
        · show (loop_go (upd tokens t { tokens t with net_query_id := nid }) (nid + 1) us).1 t = _
          rw [loop_go_apply_not_mem us _ (nid + 1) t hu_not, upd, if_pos rfl, hbf]
          simp [pending_count]
    · have htu : t ≠ u := fun he => hu_not (he ▸ htus)
      have hbf : before_first t (u :: us) = u :: before_first t us := by
        rw [before_first, if_neg (Ne.symm htu)]
      by_cases hskipu : (tokens u).state = State.Sync ∨ (tokens u).net_query_id ≠ 0
      · rw [loop_go, if_pos hskipu, hbf]
        have hrec := ih tokens nid hnd' t htus
        simpa [pending_count, if_pos hskipu] using hrec
      · rw [loop_go, if_neg hskipu, hbf]
        have hagree : ∀ x ∈ us,
            upd tokens u { tokens u with net_query_id := nid } x = tokens x := by
          intro x hx
          have hxu : x ≠ u := fun he => hu_not (he ▸ hx)
          rw [upd, if_neg hxu]
        have ht' : upd tokens u { tokens u with net_query_id := nid } t = tokens t :=
          hagree t htus
        have hrec := ih (upd tokens u { tokens u with net_query_id := nid }) (nid + 1) hnd' t htus
        rw [ht'] at hrec
        have hpc : pending_count (upd tokens u { tokens u with net_query_id := nid })
            (before_first t us) = pending_count tokens (before_first t us) :=
          pending_count_congr _ _ _ fun x hx => hagree x (mem_before_first t us x hx)
        have hfilter : ∀ rs : List (Nat × Request),
            reqs_for t ((nid, mk_request u (tokens u)) :: rs) = reqs_for t rs := by
          intro rs
          rw [reqs_for, List.filter_cons]
          simp [reqs_for, mk_request_type, Ne.symm htu]
        constructor
        · intro hskip
          obtain ⟨h1, h2⟩ := hrec.1 hskip
          exact ⟨by rw [hfilter, h1], h2⟩
        · intro hskip
          obtain ⟨h1, h2⟩ := hrec.2 hskip
          have harith : nid + 1 + pending_count tokens (before_first t us) =
              nid + pending_count tokens (u :: before_first t us) := by
            rw [pending_count, if_neg hskipu]
            omega
          constructor
          · rw [hfilter, h1, hpc, harith]
          · rw [h2, hpc, harith]

/-- Requests of one loop pass come out in ascending transport order. -/
theorem loop_go_pairwise (ts : List Nat) :
    ∀ (tokens : Nat → TokenInfo) (nid : Nat), List.Pairwise (· < ·) ts →
      List.Pairwise (fun a b : Nat × Request => a.2.token_type < b.2.token_type)
        (loop_go tokens nid ts).2 := by
  induction ts with
  | nil => intro tokens nid h; simp [loop_go]
  | cons u us ih =>
    intro tokens nid h
    obtain ⟨hu, hus⟩ := List.pairwise_cons.mp h
    rw [loop_go]
    split
    · exact ih _ _ hus
    · refine List.Pairwise.cons ?_ (ih _ _ hus)
      intro pr hpr
      have hmem := loop_go_req_mem us _ _ pr hpr
      simpa [mk_request_type] using hu _ hmem

/-- The visit list 1, ..., size-1 is strictly ascending. -/
theorem transport_types_sorted (size : Nat) :
    List.Pairwise (· < ·) (transport_types size) := by
  rw [transport_types]
  exact (List.pairwise_lt_range size).sublist (List.drop_sublist 1 _)

/-- The visit list has no duplicates. -/
theorem transport_types_nodup (size : Nat) : (transport_types size).Nodup :=
  (transport_types_sorted size).imp Nat.ne_of_lt

/-- C1: the reconciliation loop runs only when the Sync Barrier counter is
zero; it visits the transport types in ascending order (its requests come
out in strictly ascending transport order); a transport whose record is
Synced or holds a non-zero in-flight request id is skipped with its record
untouched and no request; any other transport gets exactly one request,
an unregister request (transport id, token, other-user-ids) when the state
is PendingUnregister, else a register request (transport id, token, sandbox
flag, encryption key bytes, other-user-ids), and the request's id is
recorded as the transport's in-flight request id, so at most one request
is outstanding per transport at any time. -/
theorem loop_discipline (sync_cnt next_id size : Nat) (tokens : Nat → TokenInfo) :
    (sync_cnt ≠ 0 → loop sync_cnt tokens next_id size = (tokens, [])) ∧
    (∀ t ∈ transport_types size,
      (((tokens t).state = State.Sync ∨ (tokens t).net_query_id ≠ 0) →
        reqs_for t (loop 0 tokens next_id size).2 = [] ∧
        (loop 0 tokens next_id size).1 t = tokens t) ∧
      (¬((tokens t).state = State.Sync ∨ (tokens t).net_query_id ≠ 0) →
        reqs_for t (loop 0 tokens next_id size).2 =
          [(next_id + pending_count tokens (before_first t (transport_types size)),
            mk_request t (tokens t))] ∧
        (loop 0 tokens next_id size).1 t =
          { tokens t with net_query_id :=
              next_id + pending_count tokens (before_first t (transport_types size)) })) ∧
    List.Pairwise (fun a b : Nat × Request => a.2.token_type < b.2.token_type)
      (loop 0 tokens next_id size).2 := by
  refine ⟨fun h => by rw [loop, if_pos h], fun t ht => ?_, ?_⟩
  · have h := loop_go_char (transport_types size) tokens next_id
      (transport_types_nodup size) t ht
    rw [loop, if_neg (by simp)]
    exact h
  · rw [loop, if_neg (by simp)]
    exact loop_go_pairwise (transport_types size) tokens next_id (transport_types_sorted size)

/-- C1 witness: with the barrier raised the loop is a no-op; with the
barrier at zero, the transport with a request in flight is skipped
untouched and the pending-unregister transport gets exactly one request
whose id is recorded. -/
theorem loop_discipline_witness :
    loop 1 tokW 5 4 = (tokW, []) ∧
    reqs_for 1 (loop 0 tokW 5 4).2 = [] ∧
    (loop 0 tokW 5 4).1 1 = tokW 1 ∧
    reqs_for 2 (loop 0 tokW 5 4).2 =
      [(5 + pending_count tokW (before_first 2 (transport_types 4)),
        mk_request 2 (tokW 2))] ∧
    (loop 0 tokW 5 4).1 2 =
      { tokW 2 with net_query_id :=
          5 + pending_count tokW (before_first 2 (transport_types 4)) } := by
  have h := loop_discipline 1 5 4 tokW
  have h0 := loop_discipline 0 5 4 tokW
  refine ⟨h.1 (by decide), ?_, ?_, ?_, ?_⟩
  · exact ((h0.2.1 1 (by decide)).1 (by decide)).1
  · exact ((h0.2.1 1 (by decide)).1 (by decide)).2
  · exact ((h0.2.1 2 (by decide)).2 (by decide)).1
  · exact ((h0.2.1 2 (by decide)).2 (by decide)).2

/-- The zero-valued record satisfies the reachability invariant. -/
theorem record_inv_init : record_inv TokenInfo.init := by
  constructor <;> intro h <;> simp [TokenInfo.init] at h

/-- Loading a persisted entry yields a record satisfying the reachability
invariant. -/
theorem record_inv_load_entry (s : List Nat) : record_inv (load_entry s) := by
  rcases s with _ | ⟨c, rest⟩
  · exact record_inv_init
  · rw [load_entry]
    split
    · split
      next info heq =>
        rcases heq2 : parse_token_info rest with _ | ⟨info2, rest2⟩
        · rw [heq2] at heq; cases heq
        · rw [heq2] at heq
          rcases rest2 with _ | _
          · obtain ⟨st2, tk2, ou2, sb2, en2, k2, ki2, nq2, pr2⟩ := info2
            have : nq2 = 0 ∧ pr2 = none := by
              rcases rest with _ | ⟨flags, r2⟩
              · simp [parse_token_info] at heq2
              · simp only [parse_token_info] at heq2
                split at heq2
                · cases heq2
                · split at heq2
                  · cases heq2
                  next hb =>
                    split at heq2
                    · cases heq2
                    next hous =>
                      split at heq2
                      · split at heq2
                        · cases heq2
                        next hk =>
                          split at heq2
                          · cases heq2
                          next hkid =>
                            simp only [Option.some.injEq, Prod.mk.injEq,
                              TokenInfo.mk.injEq] at heq2
                            exact ⟨heq2.1.2.2.2.2.2.2.2.1.symm, heq2.1.2.2.2.2.2.2.2.2.symm⟩
                      · simp only [Option.some.injEq, Prod.mk.injEq,
                          TokenInfo.mk.injEq] at heq2
                        exact ⟨heq2.1.2.2.2.2.2.2.2.1.symm, heq2.1.2.2.2.2.2.2.2.2.symm⟩
            obtain ⟨h1, h2⟩ := this
            subst h1 h2
            cases heq
            exact ⟨fun h => absurd rfl h, fun h => absurd rfl h⟩
          · cases heq
      next => exact record_inv_init
    · split
      · exact ⟨fun h => absurd rfl h, fun h => absurd rfl h⟩
      · split
        · exact ⟨fun h => absurd rfl h, fun h => absurd rfl h⟩
        · split
          · exact ⟨fun h => absurd rfl h, fun h => absurd rfl h⟩
          · exact record_inv_init

/-- register_device preserves the reachability invariant. -/
theorem record_inv_register (cleanInput : List Nat → Option (List Nat))
    (isValidUserId : Int → Bool) (draws : List (List Nat × Int)) (info : TokenInfo)
    (token0 : List Nat) (other_user_ids : List Int) (sandbox enc : Bool) (p : Nat)
    (info' : TokenInfo) (res : List (Nat × Outcome)) (sv : Option SaveOp)
    (hinv : record_inv info)
    (hreg : register_device cleanInput isValidUserId draws info token0 other_user_ids
      sandbox enc p = some (info', res, sv)) : record_inv info' := by
  rcases hc : cleanInput token0 with _ | tok <;> simp only [register_device, hc] at hreg
  · obtain ⟨rfl, -, -⟩ := hreg
    exact hinv
  · split at hreg
    · obtain ⟨rfl, -, -⟩ := hreg
      exact hinv
    · split at hreg
      · obtain ⟨rfl, -, -⟩ := hreg
        exact hinv
      · split at hreg
        next htok =>
          split at hreg
          next hit =>
            obtain ⟨rfl, -, -⟩ := hreg
            exact ⟨fun hp => hinv.1 (by simpa using hp), fun hn => absurd (by simp) hn⟩
          next hit =>
            obtain ⟨-, -, -, htk, hnq, -⟩ := finish_register_spec _ _ _ _ _ _ _ _ _ hreg
            refine ⟨fun _ => ?_, fun hn => ?_⟩
            · rw [htk]
              simpa using hit
            · rw [hnq] at hn
              exact absurd (by simp) hn
        next htok =>
          obtain ⟨-, -, -, htk, hnq, -⟩ := finish_register_spec _ _ _ _ _ _ _ _ _ hreg
          refine ⟨fun _ => ?_, fun hn => ?_⟩
          · rw [htk]
            simpa using htok
          · rw [hnq] at hn
            exact absurd (by simp) hn

/-- on_result preserves the reachability invariant. -/
theorem record_inv_on_result (my_id : Int) (info : TokenInfo) (qid : Nat)
    (res : NetResult) (hinv : record_inv info) :
    record_inv (on_result my_id info qid res).1 := by
  obtain ⟨st, tokn, ous, sb, ien, key, kid, nq, prom⟩ := info
  rw [on_result]
  split
  · exact hinv
  · have hmk : ∀ r : TokenInfo × List (Nat × Outcome) × Option SaveOp,
        r.1.promise = none → r.1.net_query_id = 0 → record_inv r.1 :=
      fun r h1 h2 => ⟨fun hp => absurd h1 hp, fun hn => absurd h2 hn⟩
    rcases res with b | e
    · cases b <;> cases st <;>
        exact hmk _ (by simp [apply_failure]) (by simp [apply_failure])
    · cases st <;> exact hmk _ (by simp [apply_failure]) (by simp [apply_failure])

/-- A loop step preserves the reachability invariant of the stepped record. -/
theorem record_inv_loop_step (gen_id token_type : Nat) (info : TokenInfo)
    (hinv : record_inv info) : record_inv (loop_step gen_id token_type info).1 := by
  rw [loop_step]
  split
  next h => exact hinv
  next h =>
    refine ⟨fun hp => hinv.1 (by simpa using hp), fun _ => ?_⟩
    have : info.state ≠ State.Sync := fun he => h (Or.inl he)
    simpa using this

end DeviceTokenManager
